import Mathlib

/-
Shallow embedding of the grid/placement core of the roonsim repository
(src/grid.rs, src/tile.rs, src/main.rs, src/place_tile.rs,
src/place_marble.rs).

Modelling conventions:
* Bevy world coordinates (`Vec2`, `f32` pairs in the source) are modelled
  with exact rational coordinates.
* Rust `i32` values are modelled as unbounded integers (`ℤ`); the silent
  truncation of out-of-range magnitudes in `as i32` casts is outside the
  model.
* Rust `i32` division truncates toward zero, which is `Int.tdiv`.
* Rust `f32::floor` is `Int.floor` on `ℚ`; Rust `f32::round` rounds half
  away from zero, captured by `rustRound`.
* Rust `x & 1` on `i32` extracts the low bit of the two's-complement
  representation, so `(x & 1) == 1` holds exactly when `x` is odd, i.e.
  `x % 2 = 1` with `%` the Euclidean remainder on `ℤ`.
-/

/-- src/grid.rs: `pub const GRID_UNITS_PER_TILE: i32 = 4;` -/
def GRID_UNITS_PER_TILE : ℤ := 4

/-- src/grid.rs: `pub const PIXELS_PER_GRID_UNIT: i32 = 4;` -/
def PIXELS_PER_GRID_UNIT : ℤ := 4

/-- Bevy `Vec2` (a pair of `f32`), modelled with exact rational coordinates. -/
structure Vec2 where
  x : ℚ
  y : ℚ
deriving DecidableEq

/-- Rust `f32::round`: round half away from zero, to an integer. -/
def rustRound (q : ℚ) : ℤ :=
  if 0 ≤ q then ⌊q + 1 / 2⌋ else -⌊-q + 1 / 2⌋

/-- src/tile.rs `Offset`: which horizontal parity a tile's anchor requires. -/
inductive Offset where
  | Even
  | Odd
deriving DecidableEq

/-- src/grid.rs `GridPosition` (a newtype over `IVec2`). -/
structure GridPosition where
  x : ℤ
  y : ℤ
deriving DecidableEq

/-- src/grid.rs `GridPosition::from_world_snap_row`: floor both axes to grid
units, then snap `y` with Rust's truncating `i32` division
`(y / GRID_UNITS_PER_TILE) * GRID_UNITS_PER_TILE`. -/
def GridPosition.from_world_snap_row (pos : Vec2) : GridPosition :=
  let x : ℤ := ⌊pos.x / (PIXELS_PER_GRID_UNIT : ℚ)⌋
  let y : ℤ := ⌊pos.y / (PIXELS_PER_GRID_UNIT : ℚ)⌋
  let y : ℤ := (Int.tdiv y GRID_UNITS_PER_TILE) * GRID_UNITS_PER_TILE
  ⟨x, y⟩

/-- src/grid.rs `GridPosition::from_world_with_offset`: row-snap, then force
the parity of `x` (`x -= 1` if `Even` is required and `x` is odd, `x += 1`
if `Odd` is required and `x` is even). -/
def GridPosition.from_world_with_offset (pos : Vec2) (offset : Offset) : GridPosition :=
  let p := GridPosition.from_world_snap_row pos
  let x : ℤ :=
    match offset with
    | Offset.Even => if p.x % 2 = 1 then p.x - 1 else p.x
    | Offset.Odd => if p.x % 2 = 0 then p.x + 1 else p.x
  ⟨x, p.y⟩

/-- src/grid.rs `GridPosition::from_world`: round both axes to the nearest
grid unit. -/
def GridPosition.from_world (pos : Vec2) : GridPosition :=
  ⟨rustRound (pos.x / (PIXELS_PER_GRID_UNIT : ℚ)),
   rustRound (pos.y / (PIXELS_PER_GRID_UNIT : ℚ))⟩

/-- src/grid.rs `GridPosition::to_world`: scale each axis by the per-unit
pixel size. -/
def GridPosition.to_world (p : GridPosition) : Vec2 :=
  ⟨((p.x * PIXELS_PER_GRID_UNIT : ℤ) : ℚ), ((p.y * PIXELS_PER_GRID_UNIT : ℤ) : ℚ)⟩

/-- src/tile.rs `MarbleY`: marble Y locations, as grid-unit offsets. -/
inductive MarbleY where
  | Bottom
  | Middle
  | Top
deriving DecidableEq

/-- src/tile.rs `MarbleY::to_grid`: the `repr(u8)` values 1, 2, 3. -/
def MarbleY.to_grid : MarbleY → ℤ
  | MarbleY.Bottom => 1
  | MarbleY.Middle => 2
  | MarbleY.Top => 3

/-- src/tile.rs `IoCoord`: a socket coordinate local to a tile (`x: u8`). -/
structure IoCoord where
  x : ℕ
  y : MarbleY
deriving DecidableEq

/-- src/tile.rs `IoCoord::bottom`. -/
def IoCoord.bottom (x : ℕ) : IoCoord := ⟨x, MarbleY.Bottom⟩

/-- src/tile.rs `IoCoord::top`. -/
def IoCoord.top (x : ℕ) : IoCoord := ⟨x, MarbleY.Top⟩

/-- src/tile.rs `Io`: the socket lists for one tile kind. -/
structure Io where
  inputs : List IoCoord
  outputs : List IoCoord
  sticky : List IoCoord

/-- src/tile.rs `CANUTE_IO`. -/
def CANUTE_IO : Io :=
  ⟨[], [IoCoord.bottom 2, IoCoord.top 4, IoCoord.top 6], []⟩

/-- src/tile.rs `SHIMMY_IO`. -/
def SHIMMY_IO : Io := ⟨[], [IoCoord.top 3], []⟩

/-- src/tile.rs `SWITCH_IO`. -/
def SWITCH_IO : Io := ⟨[], [IoCoord.top 2, IoCoord.top 4, IoCoord.top 6], []⟩

/-- src/tile.rs `TURN_IO`. -/
def TURN_IO : Io := ⟨[], [IoCoord.bottom 2, IoCoord.bottom 6], []⟩

/-- src/tile.rs `DISTRIBUTOR_IO`. -/
def DISTRIBUTOR_IO : Io := ⟨[], [IoCoord.top 2, IoCoord.top 6, IoCoord.top 10], []⟩

/-- src/tile.rs `LONG_TURN_IO`. -/
def LONG_TURN_IO : Io := ⟨[], [IoCoord.bottom 2, IoCoord.bottom 6, IoCoord.bottom 10], []⟩

/-- src/tile.rs `PATH_IO`. -/
def PATH_IO : Io := ⟨[IoCoord.bottom 2], [IoCoord.top 2], []⟩

/-- src/tile.rs `SWAP_IO`. -/
def SWAP_IO : Io := ⟨[], [IoCoord.top 2, IoCoord.top 6], []⟩

/-- src/tile.rs `TRAP_IO`. -/
def TRAP_IO : Io := ⟨[], [IoCoord.top 2, IoCoord.top 6, IoCoord.top 8], []⟩

/-- src/tile.rs `XOR_IO`. -/
def XOR_IO : Io := ⟨[], [IoCoord.top 2, IoCoord.top 4, IoCoord.top 6], []⟩

/-- src/tile.rs `Tile`: the closed enumeration of tile kinds. -/
inductive Tile where
  | Canute
  | Shimmy
  | Switch
  | Turn
  | Distributor
  | LongTurn
  | Path
  | Swap
  | Trap
  | Xor
deriving DecidableEq, Fintype

/-- src/tile.rs `ALL_TILES`. -/
def ALL_TILES : List Tile :=
  [Tile.Canute, Tile.Shimmy, Tile.Switch, Tile.Turn, Tile.Distributor,
   Tile.LongTurn, Tile.Path, Tile.Swap, Tile.Trap, Tile.Xor]

/-- src/tile.rs `Tile::grid_width`: squares (1, 2 or 3) times
`GRID_UNITS_PER_TILE`. -/
def Tile.grid_width (t : Tile) : ℤ :=
  let squares : ℤ :=
    match t with
    | Tile.Path | Tile.Shimmy => 1
    | Tile.Canute | Tile.Swap | Tile.Switch | Tile.Turn | Tile.Xor => 2
    | Tile.Distributor | Tile.LongTurn | Tile.Trap => 3
  GRID_UNITS_PER_TILE * squares

/-- src/tile.rs `Tile::next`: the fixed cyclic successor. -/
def Tile.next : Tile → Tile
  | Tile.Canute => Tile.Shimmy
  | Tile.Shimmy => Tile.Switch
  | Tile.Switch => Tile.Turn
  | Tile.Turn => Tile.Distributor
  | Tile.Distributor => Tile.LongTurn
  | Tile.LongTurn => Tile.Path
  | Tile.Path => Tile.Swap
  | Tile.Swap => Tile.Trap
  | Tile.Trap => Tile.Xor
  | Tile.Xor => Tile.Canute

/-- src/tile.rs `Tile::offset`: `Shimmy` is `Odd`, everything else `Even`. -/
def Tile.offset : Tile → Offset
  | Tile.Shimmy => Offset.Odd
  | _ => Offset.Even

/-- src/tile.rs `Tile::io`: the per-kind socket table. -/
def Tile.io : Tile → Io
  | Tile.Canute => CANUTE_IO
  | Tile.Shimmy => SHIMMY_IO
  | Tile.Switch => SWITCH_IO
  | Tile.Turn => TURN_IO
  | Tile.Distributor => DISTRIBUTOR_IO
  | Tile.LongTurn => LONG_TURN_IO
  | Tile.Path => PATH_IO
  | Tile.Swap => SWAP_IO
  | Tile.Trap => TRAP_IO
  | Tile.Xor => XOR_IO

/-- src/tile.rs `Tile::outputs`. -/
def Tile.outputs (t : Tile) : List IoCoord := t.io.outputs

/-- src/tile.rs `GridExtent`: the grid area covered by a tile. -/
structure GridExtent where
  origin : GridPosition
  width : ℤ
deriving DecidableEq

/-- src/tile.rs `Tile::extent`. -/
def Tile.extent (t : Tile) (origin : GridPosition) : GridExtent :=
  ⟨origin, t.grid_width⟩

/-- src/tile.rs `IoCoord::to_world`: convert a socket coordinate to world
coordinates, given a tile extent and the two mirroring flags, mirroring the
sequential updates of the Rust function. -/
def IoCoord.to_world (c : IoCoord) (tile_pos : GridExtent) (flip_x flip_y : Bool) : Vec2 :=
  let x : ℤ := tile_pos.origin.x
  let y : ℤ := tile_pos.origin.y
  let x_direction : ℤ := if flip_x then -1 else 1
  let x : ℤ := if flip_x then x + tile_pos.width else x
  let y_direction : ℤ := if flip_y then -1 else 1
  let y : ℤ := if flip_y then y + 1 else y
  let x : ℤ := x + x_direction * (c.x : ℤ)
  let y : ℤ := y + y_direction * c.y.to_grid
  GridPosition.to_world ⟨x, y⟩

/-- src/tile.rs `GridExtent::contains`: does a world point hit this extent
(via the row-snap conversion)? -/
def GridExtent.contains (e : GridExtent) (world_pos : Vec2) : Bool :=
  let grid_pos := GridPosition.from_world_snap_row world_pos
  if e.origin.y ≠ grid_pos.y then false
  else if grid_pos.x < e.origin.x then false
  else if grid_pos.x ≥ e.origin.x + e.width then false
  else true

/-- src/tile.rs `GridExtent::intersects`: do two extents overlap? -/
def GridExtent.intersects (e other : GridExtent) : Bool :=
  if e.origin.y ≠ other.origin.y then false
  else if e.origin.x + e.width ≤ other.origin.x then false
  else if other.origin.x + other.width ≤ e.origin.x then false
  else true

/-- The board state mutated by the placement system: the committed tile
extents and the spawned marble-socket world positions (src/main.rs and
src/place_tile.rs spawn entities carrying exactly these values). -/
structure BoardState where
  tiles : List GridExtent
  sockets : List Vec2
deriving DecidableEq

/-- The rejection test of `mouseclick_place_tile` (src/main.rs lines
236-242): placement is accepted exactly when no existing extent intersects
the candidate. -/
def validate_placement (existing : List GridExtent) (candidate : GridExtent) : Bool :=
  !(existing.any (fun e => e.intersects candidate))

/-- src/place_tile.rs `mouseclick_place_tile` (one `MouseClick`), with the
ghost's components passed explicitly: compute the snapped grid position and
the candidate extent, reject if any existing extent intersects it, otherwise
spawn the tile extent and (via `place_marble_sockets`, src/place_marble.rs)
one socket at `IoCoord::to_world` of each output coordinate.
`new_tile_extent` is the candidate extent the click computes (the
`grid_position` / `new_tile_extent` locals of the Rust function). -/
def new_tile_extent (tile : Tile) (offset : Offset) (world_pos : Vec2) : GridExtent :=
  let grid_position := GridPosition.from_world_with_offset world_pos offset
  tile.extent grid_position

/-- The body of `mouseclick_place_tile` for one `MouseClick`, acting on a
`BoardState`. -/
def mouseclick_place_tile (state : BoardState) (tile : Tile) (offset : Offset)
    (flip_x flip_y : Bool) (world_pos : Vec2) : BoardState :=
  let ext := new_tile_extent tile offset world_pos
  if state.tiles.any (fun e => e.intersects ext) then
    state
  else
    { tiles := state.tiles ++ [ext]
      sockets := state.sockets
        ++ tile.outputs.map (fun c => c.to_world ext flip_x flip_y) }

lemma rustRound_intCast (n : ℤ) : rustRound ((n : ℚ)) = n := by
  unfold rustRound
  split_ifs with h
  · rw [add_comm, show ((n : ℚ)) = ((n : ℤ) : ℚ) from rfl, Int.floor_add_int]
    norm_num
  · rw [show (-(n : ℚ)) = (((-n : ℤ)) : ℚ) by push_cast; ring, add_comm,
      Int.floor_add_int]
    norm_num

lemma from_world_to_world (p : GridPosition) :
    GridPosition.from_world (GridPosition.to_world p) = p := by
  unfold GridPosition.from_world GridPosition.to_world
  have h4 : ((PIXELS_PER_GRID_UNIT : ℤ) : ℚ) = 4 := by norm_num [PIXELS_PER_GRID_UNIT]
  have hx : (((p.x * PIXELS_PER_GRID_UNIT : ℤ) : ℚ)) / (PIXELS_PER_GRID_UNIT : ℚ)
      = ((p.x : ℤ) : ℚ) := by
    push_cast [h4]
    rw [mul_div_assoc]
    norm_num
  have hy : (((p.y * PIXELS_PER_GRID_UNIT : ℤ) : ℚ)) / (PIXELS_PER_GRID_UNIT : ℚ)
      = ((p.y : ℤ) : ℚ) := by
    push_cast [h4]
    rw [mul_div_assoc]
    norm_num
  simp only [hx, hy, rustRound_intCast]

/-- C10: converting a grid position to world coordinates, back to the grid
via the rounding conversion (`from_world`), and again to world coordinates
reproduces the original world coordinates. -/
theorem grid_world_roundtrip (p : GridPosition) :
    GridPosition.to_world (GridPosition.from_world (GridPosition.to_world p))
      = GridPosition.to_world p := by
  rw [from_world_to_world]

lemma intersects_eq_true_iff (a b : GridExtent) :
    a.intersects b = true ↔
      a.origin.y = b.origin.y ∧
      b.origin.x < a.origin.x + a.width ∧
      a.origin.x < b.origin.x + b.width := by
  simp only [GridExtent.intersects]
  split_ifs with h1 h2 h3 <;> simp <;> omega

lemma contains_eq_true_iff (e : GridExtent) (p : Vec2) :
    e.contains p = true ↔
      (GridPosition.from_world_snap_row p).y = e.origin.y ∧
      e.origin.x ≤ (GridPosition.from_world_snap_row p).x ∧
      (GridPosition.from_world_snap_row p).x < e.origin.x + e.width := by
  simp only [GridExtent.contains]
  split_ifs with h1 h2 h3 <;> simp <;> omega

/-- C2: `intersects` is true exactly when the two extents share a row and
their half-open horizontal spans overlap (neither lies entirely to one side
of the other); in particular, extents on the same row that merely touch
edges (`a.origin.x + a.width = b.origin.x`) do not intersect. -/
theorem intersects_overlap_iff (a b : GridExtent) :
    (a.intersects b = true ↔
      a.origin.y = b.origin.y ∧
      b.origin.x < a.origin.x + a.width ∧
      a.origin.x < b.origin.x + b.width) ∧
    (a.origin.y = b.origin.y → a.origin.x + a.width = b.origin.x →
      a.intersects b = false) := by
  refine ⟨intersects_eq_true_iff a b, fun _ htouch => ?_⟩
  rw [Bool.eq_false_iff]
  intro hcontra
  have h := (intersects_eq_true_iff a b).mp hcontra
  omega

/-- Witness for C2 at concrete extents: two width-8 extents on row 0 that
touch at x = 8 do not intersect. -/
theorem intersects_overlap_iff_witness :
    GridExtent.intersects ⟨⟨0, 0⟩, 8⟩ ⟨⟨8, 0⟩, 8⟩ = false :=
  (intersects_overlap_iff ⟨⟨0, 0⟩, 8⟩ ⟨⟨8, 0⟩, 8⟩).2 rfl rfl

/-- C4: `contains` is true exactly when the row-snap conversion of the world
point lands on the extent's row with `x` in the half-open span
`[origin.x, origin.x + width)`. -/
theorem contains_iff_snap_in_span (e : GridExtent) (p : Vec2) :
    e.contains p = true ↔
      (GridPosition.from_world_snap_row p).y = e.origin.y ∧
      e.origin.x ≤ (GridPosition.from_world_snap_row p).x ∧
      (GridPosition.from_world_snap_row p).x < e.origin.x + e.width :=
  contains_eq_true_iff e p

/-- C5: `intersects` is symmetric, and every extent the program constructs
(`Tile::extent`, whose width is always positive) intersects itself. -/
theorem intersects_symm_and_self :
    (∀ a b : GridExtent, a.intersects b = b.intersects a) ∧
    (∀ (t : Tile) (p : GridPosition), (t.extent p).intersects (t.extent p) = true) := by
  constructor
  · intro a b
    rw [Bool.eq_iff_iff, intersects_eq_true_iff, intersects_eq_true_iff]
    constructor
    · rintro ⟨h1, h2, h3⟩; exact ⟨h1.symm, h3, h2⟩
    · rintro ⟨h1, h2, h3⟩; exact ⟨h1.symm, h3, h2⟩
  · intro t p
    rw [intersects_eq_true_iff]
    refine ⟨rfl, ?_, ?_⟩ <;>
      · cases t <;> simp [Tile.extent, Tile.grid_width, GRID_UNITS_PER_TILE]

/-- C8: the tile-kind table is closed with exactly ten kinds; `grid_width`
is the number of squares (1 for `Path` and `Shimmy`, 2 for `Canute`,
`Swap`, `Switch`, `Turn`, `Xor`, 3 for `Distributor`, `LongTurn`, `Trap`)
times `GRID_UNITS_PER_TILE = 4`; and exactly one kind — the narrow
`Shimmy` — has required offset `Odd`, every other kind `Even`. -/
theorem tile_table_spec :
    ALL_TILES.length = 10 ∧
    (∀ t : Tile, t ∈ ALL_TILES) ∧
    (Tile.Path.grid_width = GRID_UNITS_PER_TILE * 1 ∧
     Tile.Shimmy.grid_width = GRID_UNITS_PER_TILE * 1 ∧
     Tile.Canute.grid_width = GRID_UNITS_PER_TILE * 2 ∧
     Tile.Swap.grid_width = GRID_UNITS_PER_TILE * 2 ∧
     Tile.Switch.grid_width = GRID_UNITS_PER_TILE * 2 ∧
     Tile.Turn.grid_width = GRID_UNITS_PER_TILE * 2 ∧
     Tile.Xor.grid_width = GRID_UNITS_PER_TILE * 2 ∧
     Tile.Distributor.grid_width = GRID_UNITS_PER_TILE * 3 ∧
     Tile.LongTurn.grid_width = GRID_UNITS_PER_TILE * 3 ∧
     Tile.Trap.grid_width = GRID_UNITS_PER_TILE * 3) ∧
    (∀ t : Tile, t.offset = Offset.Odd ↔ t = Tile.Shimmy) := by
  refine ⟨rfl, ?_, ?_, ?_⟩
  · intro t; cases t <;> decide
  · decide
  · intro t; cases t <;> decide

/-- C9: `Tile::next` is a single ten-cycle: applying it exactly ten times is
the identity on every kind, and iterating it from any kind reaches every
kind within ten steps. -/
theorem tile_next_ten_cycle :
    (∀ t : Tile, Tile.next^[10] t = t) ∧
    (∀ t s : Tile, ∃ k, k < 10 ∧ Tile.next^[k] t = s) := by
  constructor
  · intro t; cases t <;> rfl
  · intro t s
    have h : s ∈ (List.range 10).map (fun k => Tile.next^[k] t) := by
      cases t <;> cases s <;> decide
    obtain ⟨k, hk, hks⟩ := List.mem_map.mp h
    exact ⟨k, List.mem_range.mp hk, hks⟩

/-- C6: for every socket coordinate and footprint, the horizontally flipped
socket position and the unflipped one are mirror images about the vertical
line through the footprint's horizontal midpoint: their world x coordinates
sum to `(2 * origin.x + width) * PIXELS_PER_GRID_UNIT` and their world y
coordinates are equal. -/
theorem io_to_world_mirror_x (c : IoCoord) (f : GridExtent) :
    (c.to_world f true false).x + (c.to_world f false false).x
      = (((2 * f.origin.x + f.width) * PIXELS_PER_GRID_UNIT : ℤ) : ℚ) ∧
    (c.to_world f true false).y = (c.to_world f false false).y := by
  refine ⟨?_, ?_⟩
  · simp only [IoCoord.to_world, GridPosition.to_world, if_true, if_false,
      Bool.false_eq_true, ite_false, ite_true]
    push_cast
    ring
  · simp only [IoCoord.to_world, GridPosition.to_world, if_true, if_false,
      Bool.false_eq_true, ite_false, ite_true]

/-- C7: vertical flipping keeps the world x coordinate and sends the grid y
to `origin.y + 1 - socket_y_offset` (so flipped and unflipped grid y values
sum to `2 * origin.y + 1`); in particular a `Top` socket (offset 3) lands at
grid y `origin.y - 2`, below the footprint's row. -/
theorem io_to_world_flip_y_spec (c : IoCoord) (f : GridExtent) (fx : Bool) :
    (c.to_world f fx true).x = (c.to_world f fx false).x ∧
    (c.to_world f fx true).y
      = (((f.origin.y + 1 - c.y.to_grid) * PIXELS_PER_GRID_UNIT : ℤ) : ℚ) ∧
    (c.to_world f fx true).y + (c.to_world f fx false).y
      = (((2 * f.origin.y + 1) * PIXELS_PER_GRID_UNIT : ℤ) : ℚ) ∧
    (c.y = MarbleY.Top →
      (c.to_world f fx true).y
        = (((f.origin.y - 2) * PIXELS_PER_GRID_UNIT : ℤ) : ℚ)) := by
  refine ⟨?_, ?_, ?_, ?_⟩
  · simp only [IoCoord.to_world, GridPosition.to_world]
  · simp only [IoCoord.to_world, GridPosition.to_world, if_true, if_false,
      Bool.false_eq_true, ite_false, ite_true]
    push_cast
    ring
  · simp only [IoCoord.to_world, GridPosition.to_world, if_true, if_false,
      Bool.false_eq_true, ite_false, ite_true]
    push_cast
    ring
  · intro hc
    simp only [IoCoord.to_world, GridPosition.to_world, if_true, if_false,
      Bool.false_eq_true, ite_false, ite_true, hc, MarbleY.to_grid]
    push_cast
    ring

/-- Witness for C7 at a concrete input: the `Top` socket of `PATH_IO`
(`IoCoord::top(2)`) on a width-4 footprint at the origin, vertically
flipped, lands at grid y `-2`, i.e. world y `-8`. -/
theorem io_to_world_flip_y_spec_witness :
    (IoCoord.to_world (IoCoord.top 2) ⟨⟨0, 0⟩, 4⟩ false true).y
      = (((0 - 2) * PIXELS_PER_GRID_UNIT : ℤ) : ℚ) :=
  (io_to_world_flip_y_spec (IoCoord.top 2) ⟨⟨0, 0⟩, 4⟩ false).2.2.2 rfl

lemma from_world_with_offset_y (pos : Vec2) (offset : Offset) :
    (GridPosition.from_world_with_offset pos offset).y
      = Int.tdiv ⌊pos.y / (PIXELS_PER_GRID_UNIT : ℚ)⌋ GRID_UNITS_PER_TILE
          * GRID_UNITS_PER_TILE := rfl

lemma from_world_with_offset_x_even (pos : Vec2) :
    (GridPosition.from_world_with_offset pos Offset.Even).x
      = (if ⌊pos.x / (PIXELS_PER_GRID_UNIT : ℚ)⌋ % 2 = 1
         then ⌊pos.x / (PIXELS_PER_GRID_UNIT : ℚ)⌋ - 1
         else ⌊pos.x / (PIXELS_PER_GRID_UNIT : ℚ)⌋) := rfl

lemma from_world_with_offset_x_odd (pos : Vec2) :
    (GridPosition.from_world_with_offset pos Offset.Odd).x
      = (if ⌊pos.x / (PIXELS_PER_GRID_UNIT : ℚ)⌋ % 2 = 0
         then ⌊pos.x / (PIXELS_PER_GRID_UNIT : ℚ)⌋ + 1
         else ⌊pos.x / (PIXELS_PER_GRID_UNIT : ℚ)⌋) := rfl

/-- Counterexample to C1's y-characterization: at world position
`(0, -4)` the floored grid y is `-1`, whose greatest multiple of
`GRID_UNITS_PER_TILE = 4` below it is `-4`; but the code's truncating
division snaps to `0` instead. -/
theorem from_world_with_offset_most_negative_y_counterexample :
    ¬ ((GridPosition.from_world_with_offset ⟨0, -4⟩ Offset.Even).y
        = GRID_UNITS_PER_TILE
            * Int.fdiv ⌊((-4 : ℚ) / (PIXELS_PER_GRID_UNIT : ℚ))⌋ GRID_UNITS_PER_TILE) := by
  have h1 : ⌊((-4 : ℚ) / (PIXELS_PER_GRID_UNIT : ℚ))⌋ = -1 := by
    norm_num [PIXELS_PER_GRID_UNIT]
  simp only [GridPosition.from_world_with_offset, GridPosition.from_world_snap_row,
    h1, GRID_UNITS_PER_TILE]
  decide

/-- C1 (amended): `from_world_with_offset` floors the world position to the
grid; its `y` is the floored grid y snapped with Rust's rounding-toward-zero
division — equal to the greatest multiple of `GRID_UNITS_PER_TILE` at or
below the floored y whenever that y is nonnegative (not in general, see the
counterexample) — and its `x` is the floored grid x decremented by one when
`Even` parity is required and the value is odd, incremented by one when
`Odd` parity is required and the value is even; the result's `x` always has
the required parity and its `y` is always a multiple of 4. -/
theorem from_world_with_offset_spec (pos : Vec2) (offset : Offset) :
    (GridPosition.from_world_with_offset pos offset).y
      = Int.tdiv ⌊pos.y / (PIXELS_PER_GRID_UNIT : ℚ)⌋ GRID_UNITS_PER_TILE
          * GRID_UNITS_PER_TILE ∧
    (0 ≤ ⌊pos.y / (PIXELS_PER_GRID_UNIT : ℚ)⌋ →
      (GridPosition.from_world_with_offset pos offset).y
        = GRID_UNITS_PER_TILE
            * Int.fdiv ⌊pos.y / (PIXELS_PER_GRID_UNIT : ℚ)⌋ GRID_UNITS_PER_TILE) ∧
    (GridPosition.from_world_with_offset pos offset).x
      = (match offset with
         | Offset.Even =>
             if ⌊pos.x / (PIXELS_PER_GRID_UNIT : ℚ)⌋ % 2 = 1
             then ⌊pos.x / (PIXELS_PER_GRID_UNIT : ℚ)⌋ - 1
             else ⌊pos.x / (PIXELS_PER_GRID_UNIT : ℚ)⌋
         | Offset.Odd =>
             if ⌊pos.x / (PIXELS_PER_GRID_UNIT : ℚ)⌋ % 2 = 0
             then ⌊pos.x / (PIXELS_PER_GRID_UNIT : ℚ)⌋ + 1
             else ⌊pos.x / (PIXELS_PER_GRID_UNIT : ℚ)⌋) ∧
    (offset = Offset.Even →
      (GridPosition.from_world_with_offset pos offset).x % 2 = 0) ∧
    (offset = Offset.Odd →
      (GridPosition.from_world_with_offset pos offset).x % 2 = 1) ∧
    GRID_UNITS_PER_TILE ∣ (GridPosition.from_world_with_offset pos offset).y := by
  have h4 : (0 : ℤ) ≤ GRID_UNITS_PER_TILE := by norm_num [GRID_UNITS_PER_TILE]
  refine ⟨from_world_with_offset_y pos offset, ?_, ?_, ?_, ?_, ?_⟩
  · intro h0
    rw [from_world_with_offset_y pos offset, Int.tdiv_eq_ediv h0 h4,
      Int.fdiv_eq_ediv _ h4, mul_comm]
  · cases offset <;> rfl
  · intro h; subst h
    rw [from_world_with_offset_x_even]
    split_ifs with hp <;> omega
  · intro h; subst h
    rw [from_world_with_offset_x_odd]
    split_ifs with hp <;> omega
  · rw [from_world_with_offset_y pos offset]
    exact dvd_mul_left _ _

/-- Witness for C1's amended claim at world position `(5, 9)` with required
parity `Even`: the floored grid y is `2` (nonnegative, so the snapped row is
the greatest multiple of 4 below it, namely `0`), and the resulting x is
even. -/
theorem from_world_with_offset_spec_witness :
    (GridPosition.from_world_with_offset ⟨5, 9⟩ Offset.Even).y
      = GRID_UNITS_PER_TILE
          * Int.fdiv ⌊((9 : ℚ) / (PIXELS_PER_GRID_UNIT : ℚ))⌋ GRID_UNITS_PER_TILE ∧
    (GridPosition.from_world_with_offset ⟨5, 9⟩ Offset.Even).x % 2 = 0 := by
  have h := from_world_with_offset_spec ⟨5, 9⟩ Offset.Even
  exact ⟨h.2.1 (by norm_num [PIXELS_PER_GRID_UNIT]), h.2.2.2.1 rfl⟩

/-- C3: a candidate placement is rejected exactly when some existing extent
intersects it; on rejection the state is unchanged (no tile extent and no
sockets are committed), and on acceptance the new state is the old one with
exactly the candidate extent and its output sockets appended, the existing
extents untouched.  (`validate_placement` itself is a pure function of the
existing extents and the candidate, so validation cannot mutate the
collection.) -/
theorem mouseclick_place_tile_spec (state : BoardState) (tile : Tile)
    (offset : Offset) (fx fy : Bool) (pos : Vec2) :
    (validate_placement state.tiles (new_tile_extent tile offset pos) = false ↔
      ∃ e ∈ state.tiles, e.intersects (new_tile_extent tile offset pos) = true) ∧
    (validate_placement state.tiles (new_tile_extent tile offset pos) = false →
      mouseclick_place_tile state tile offset fx fy pos = state) ∧
    (validate_placement state.tiles (new_tile_extent tile offset pos) = true →
      (mouseclick_place_tile state tile offset fx fy pos).tiles
          = state.tiles ++ [new_tile_extent tile offset pos] ∧
      (mouseclick_place_tile state tile offset fx fy pos).sockets
          = state.sockets
            ++ tile.outputs.map
                (fun c => c.to_world (new_tile_extent tile offset pos) fx fy)) := by
  refine ⟨?_, ?_, ?_⟩
  · simp [validate_placement, List.any_eq_true]
  · intro h
    have hany : state.tiles.any
        (fun e => e.intersects (new_tile_extent tile offset pos)) = true := by
      simpa [validate_placement] using h
    simp [mouseclick_place_tile, hany]
  · intro h
    have hany : state.tiles.any
        (fun e => e.intersects (new_tile_extent tile offset pos)) = false := by
      simpa [validate_placement] using h
    simp [mouseclick_place_tile, hany]

/-- Witness for C3 on a concrete board: on the empty board validation
accepts a `Path` tile clicked at the world origin, and the commit appends
exactly its extent; on the resulting board the identical second click is
rejected and the state is unchanged. -/
theorem mouseclick_place_tile_spec_witness :
    (mouseclick_place_tile ⟨[], []⟩ Tile.Path Offset.Even false false ⟨0, 0⟩).tiles
      = [new_tile_extent Tile.Path Offset.Even ⟨0, 0⟩] := by
  have h := (mouseclick_place_tile_spec ⟨[], []⟩ Tile.Path Offset.Even false false
    ⟨0, 0⟩).2.2 rfl
  simpa using h.1
